import Mathlib

/-!
# Public-key operations of the GitHub client (users_keys.go)

A shallow embedding of `src/github/users_keys.go`: the `Key` record, the five
operations `ListKeys`, `GetKey`, `CreateKey`, `EditKey`, `DeleteKey` of
`UsersService`, and the two collaborators they call on the shared client,
`NewRequest` (the request builder) and `Do` (the transport).

Conventions of the embedding.

* A Go pointer is an `Option`: `none` is the nil pointer, `some v` a pointer to
  a cell holding `v`.  A Go `error` is an `Option Err`: `none` is the nil error.
* A Go slice `[]Key` is an `Option (List Key)`: `none` is the nil slice.
* Go `int` is embedded in `Int`; the operations only format it, so no
  arithmetic can overflow.  The `user` argument and the request paths, which
  the operations only compare with the empty string and concatenate, are
  `String`s.
* The fields of `Key` keep their Go value sets, because the JSON encoder and
  decoder inspect them: a string field is a `GoString`, an arbitrary byte
  sequence, and the id field is a `GoInt`, an integer in the range of `int`
  (taken 64 bits wide).
* `s.client.NewRequest` and `s.client.Do` are not defined in this source file;
  they are taken as parameters (the fields of `Client`) and may depend on and
  change a client state `σ`, which is passed explicitly.
-/

set_option linter.dupNamespace false

namespace Github

/-! ## Data model -/

/-- A Go `string`: an arbitrary sequence of bytes, not necessarily valid
UTF-8. -/
abbrev GoString := List UInt8

/-- The Go string a string literal denotes: the UTF-8 encoding of its
characters. -/
def utf8 (s : String) : GoString :=
  (s.data.map String.utf8EncodeChar).flatten

/-- Smallest value of a Go `int`, taken 64 bits wide. -/
def minInt : Int := -9223372036854775808

/-- Largest value of a Go `int`, taken 64 bits wide. -/
def maxInt : Int := 9223372036854775807

/-- A Go `int`: an integer within the range of the type. -/
abbrev GoInt := { n : Int // minInt ≤ n ∧ n ≤ maxInt }

/-- Key represents a public SSH key used to authenticate a user or deploy
script.  Every field is a pointer in the source, with JSON tags
`id`, `key`, `url`, `title`, each with `omitempty`. -/
structure Key where
  ID : Option GoInt
  Key : Option GoString
  URL : Option GoString
  Title : Option GoString
  deriving DecidableEq, Repr

/-- The content of the cell allocated by `new(Key)`: every pointer field nil. -/
def newKey : Key := ⟨none, none, none, none⟩

/-- The `body interface{}` argument of `NewRequest`, as the operations of this
file pass it: the nil interface, or a `*Key` pointer (itself possibly nil). -/
inductive Body where
  | nil
  | key (p : Option Key)
  deriving DecidableEq, Repr

/-- The `v interface{}` argument of `Do`, as the operations of this file pass
it: the nil interface (the response body is discarded), a `*[]Key` pointer, or a
`*Key` pointer. -/
inductive Target where
  | nil
  | keys
  | key
  deriving DecidableEq, Repr

/-- The content of the cell a decode target points to.  `Do` receives the cell
as the operation initialised it and hands back what it left there. -/
def Target.Cell : Target → Type
  | Target.nil => Unit
  | Target.keys => Option (List Key)
  | Target.key => Key

/-- The shared client the service methods call (`s.client`).

* `NewRequest method urlStr body` returns `(*http.Request, error)`.
* `Do req v` returns `(*Response, error)` and may write into the cell `v`
  points to; the third component of its result is the final content of
  that cell. -/
structure Client (σ Req Resp Err : Type) where
  NewRequest : String → String → Body → σ → (Option Req × Option Err) × σ
  Do : Option Req → (v : Target) → v.Cell → σ → (Option Resp × Option Err × v.Cell) × σ

/-! ## Formatting -/

/-- The rendering of an `int` under the `%v` verb of `fmt.Sprintf`: base-ten
digits, with a leading minus sign for a negative value. -/
def formatInt (i : Int) : String :=
  match i with
  | Int.ofNat n => String.mk (Nat.toDigits 10 n)
  | Int.negSucc n => "-" ++ String.mk (Nat.toDigits 10 (n + 1))

/-- The base-ten digits of a natural number, most significant first; zero has
the single digit 0. -/
def decimalDigits (n : Nat) : List Nat :=
  if n = 0 then [0] else (Nat.digits 10 n).reverse

/-- The decimal rendering of an integer, from its digits: a minus sign for a
negative number, then the digits of its absolute value. -/
def decimal (i : Int) : String :=
  (if i < 0 then "-" else "") ++ String.mk ((decimalDigits i.natAbs).map Nat.digitChar)

/-- The path `ListKeys` computes for `user` (lines 27-32). -/
def listKeysPath (user : String) : String :=
  if user ≠ "" then "users/" ++ user ++ "/keys" else "user/keys"

/-- The path `fmt.Sprintf("user/keys/%v", id)` of `GetKey`, `EditKey` and
`DeleteKey`. -/
def keyPath (id : Int) : String :=
  "user/keys/" ++ formatInt id

/-! ## Operations -/

section Operations

variable {σ Req Resp Err : Type}

/-- ListKeys lists the verified public keys for a user.  Passing the empty
string will fetch keys for the authenticated user. -/
def ListKeys (c : Client σ Req Resp Err) (user : String) (s : σ) :
    (Option (List Key) × Option Resp × Option Err) × σ :=
  let u := listKeysPath user
  match c.NewRequest "GET" u Body.nil s with
  | ((_, some err), s1) => ((none, none, some err), s1)
  | ((req, none), s1) =>
    let keys : Target.keys.Cell := none
    match c.Do req Target.keys keys s1 with
    | ((resp, err, keys1), s2) => ((keys1, resp, err), s2)

/-- GetKey fetches a single public key. -/
def GetKey (c : Client σ Req Resp Err) (id : Int) (s : σ) :
    (Option Key × Option Resp × Option Err) × σ :=
  let u := keyPath id
  match c.NewRequest "GET" u Body.nil s with
  | ((_, some err), s1) => ((none, none, some err), s1)
  | ((req, none), s1) =>
    let key : Target.key.Cell := newKey
    match c.Do req Target.key key s1 with
    | ((resp, err, key1), s2) => ((some key1, resp, err), s2)

/-- CreateKey adds a public key for the authenticated user. -/
def CreateKey (c : Client σ Req Resp Err) (key : Option Key) (s : σ) :
    (Option Key × Option Resp × Option Err) × σ :=
  let u := "user/keys"
  match c.NewRequest "POST" u (Body.key key) s with
  | ((_, some err), s1) => ((none, none, some err), s1)
  | ((req, none), s1) =>
    let k : Target.key.Cell := newKey
    match c.Do req Target.key k s1 with
    | ((resp, err, k1), s2) => ((some k1, resp, err), s2)

/-- EditKey edits a public key. -/
def EditKey (c : Client σ Req Resp Err) (id : Int) (key : Option Key) (s : σ) :
    (Option Key × Option Resp × Option Err) × σ :=
  let u := keyPath id
  match c.NewRequest "PATCH" u (Body.key key) s with
  | ((_, some err), s1) => ((none, none, some err), s1)
  | ((req, none), s1) =>
    let k : Target.key.Cell := newKey
    match c.Do req Target.key k s1 with
    | ((resp, err, k1), s2) => ((some k1, resp, err), s2)

/-- DeleteKey deletes a public key. -/
def DeleteKey (c : Client σ Req Resp Err) (id : Int) (s : σ) :
    (Option Resp × Option Err) × σ :=
  let u := keyPath id
  match c.NewRequest "DELETE" u Body.nil s with
  | ((_, some err), s1) => ((none, some err), s1)
  | ((req, none), s1) =>
    match c.Do req Target.nil () s1 with
    | ((resp, err, _), s2) => ((resp, err), s2)

end Operations

/-! ## Observing the calls an operation makes -/

/-- One call on the shared client, with the arguments it received. -/
inductive Event (Req : Type) where
  | newRequest (method urlStr : String) (body : Body)
  | doCall (req : Option Req) (v : Target)
  deriving DecidableEq, Repr

/-- The same client, with every call appended to a log kept next to its state.
Results and the underlying state are those of `c`. -/
def Client.traced {σ Req Resp Err : Type} (c : Client σ Req Resp Err) :
    Client (σ × List (Event Req)) Req Resp Err where
  NewRequest := fun method urlStr body s =>
    ((c.NewRequest method urlStr body s.1).1,
      ((c.NewRequest method urlStr body s.1).2, s.2 ++ [Event.newRequest method urlStr body]))
  Do := fun req v cell s =>
    ((c.Do req v cell s.1).1, ((c.Do req v cell s.1).2, s.2 ++ [Event.doCall req v]))

/-- The events one operation appends to the log: the builder call, then the
transport call when the builder reported no error. -/
def callEvents {Req Err : Type} (method urlStr : String) (body : Body) (v : Target)
    (built : Option Req × Option Err) : List (Event Req) :=
  Event.newRequest method urlStr body ::
    (match built.2 with
     | some _ => []
     | none => [Event.doCall built.1 v])

/-- Whether an event is a call of the request builder. -/
def Event.isNewRequest {Req : Type} : Event Req → Bool
  | Event.newRequest _ _ _ => true
  | Event.doCall _ _ => false

/-- Whether an event is an execution of the transport. -/
def Event.isDo {Req : Type} : Event Req → Bool
  | Event.newRequest _ _ _ => false
  | Event.doCall _ _ => true

/-- Number of request-builder calls in a log. -/
def builderCalls {Req : Type} (log : List (Event Req)) : Nat :=
  log.countP Event.isNewRequest

/-- Number of transport executions in a log. -/
def transportCalls {Req : Type} (log : List (Event Req)) : Nat :=
  log.countP Event.isDo

/-! ## JSON form of `Key`

The source gives the field tags; the encoding and decoding themselves are done
by Go's standard library (`encoding/json`, with `unicode/utf8`), which is not
part of this repository.  The definitions of this section are a hand-written
model of the library's documented behaviour on a `Key`:

* encoding: fields in declaration order under their tag, an `omitempty`
  pointer field left out exactly when the pointer is nil, and every byte of a
  string that is not part of a valid UTF-8 sequence replaced by U+FFFD;
* decoding: members taken in document order, a member name matched against
  the tags exactly or under case folding, unknown members skipped, null
  setting the pointer to nil, a number accepted for `id` only when it is an
  integer in the range of `int`, a value of the wrong kind a decoding error,
  and invalid UTF-8 in a string value replaced by U+FFFD.

The textual layer (quoting and escaping, number syntax, white space) is not
modelled: encoder and decoder meet at a list of members. -/

/-- Model of `unicode/utf8` (tables `first` and `acceptRanges`): what the
leading byte of a sequence announces: a one-byte sequence, a two-byte
sequence, a three- or four-byte sequence with the range accepted for its
second byte, or no sequence at all. -/
inductive Lead where
  | ascii
  | two
  | three (lo hi : UInt8)
  | four (lo hi : UInt8)
  | invalid
  deriving DecidableEq, Repr

/-- Whether `lo ≤ b ≤ hi`. -/
def inRange (lo hi b : UInt8) : Bool :=
  decide (lo ≤ b) && decide (b ≤ hi)

/-- Model of `unicode/utf8` (table `first`): the class of a leading byte.
Bytes 0x80-0xC1 and 0xF5-0xFF cannot lead; 0xE0, 0xED, 0xF0 and 0xF4 narrow
the second byte, which excludes overlong forms, surrogates and values above
U+10FFFF. -/
def lead (b0 : UInt8) : Lead :=
  if b0 < 0x80 then Lead.ascii
  else if b0 < 0xC2 then Lead.invalid
  else if b0 ≤ 0xDF then Lead.two
  else if b0 = 0xE0 then Lead.three 0xA0 0xBF
  else if b0 = 0xED then Lead.three 0x80 0x9F
  else if b0 ≤ 0xEF then Lead.three 0x80 0xBF
  else if b0 = 0xF0 then Lead.four 0x90 0xBF
  else if b0 ≤ 0xF3 then Lead.four 0x80 0xBF
  else if b0 = 0xF4 then Lead.four 0x80 0x8F
  else Lead.invalid

/-- Model of `utf8.DecodeRuneInString`: the width of the valid sequence at
the head of the string, and 0 where the library reports `RuneError` (an
empty string, a byte that cannot lead, a sequence cut short, or a
continuation byte out of range). -/
def runeLen : GoString → Nat
  | [] => 0
  | b0 :: rest =>
    match lead b0, rest with
    | Lead.ascii, _ => 1
    | Lead.two, b1 :: _ => if inRange 0x80 0xBF b1 then 2 else 0
    | Lead.three lo hi, b1 :: b2 :: _ =>
      if inRange lo hi b1 && inRange 0x80 0xBF b2 then 3 else 0
    | Lead.four lo hi, b1 :: b2 :: b3 :: _ =>
      if inRange lo hi b1 && inRange 0x80 0xBF b2 && inRange 0x80 0xBF b3 then 4 else 0
    | _, _ => 0

/-- The UTF-8 encoding of U+FFFD, the replacement character. -/
def replacement : GoString := [0xEF, 0xBF, 0xBD]

/-- Model of the string loop of `encoding/json`: valid sequences are kept,
and each byte at which no valid sequence starts is replaced by U+FFFD, the
scan resuming at the next byte. -/
def toValidUTF8 : GoString → GoString
  | [] => []
  | b0 :: rest =>
    match runeLen (b0 :: rest), rest with
    | 1, r => b0 :: toValidUTF8 r
    | 2, b1 :: r1 => b0 :: b1 :: toValidUTF8 r1
    | 3, b1 :: b2 :: r2 => b0 :: b1 :: b2 :: toValidUTF8 r2
    | 4, b1 :: b2 :: b3 :: r3 => b0 :: b1 :: b2 :: b3 :: toValidUTF8 r3
    | _, r => replacement ++ toValidUTF8 r

/-- Model of `utf8.ValidString`: the string is a concatenation of valid
sequences. -/
def validUTF8 : GoString → Bool
  | [] => true
  | b0 :: rest =>
    match runeLen (b0 :: rest), rest with
    | 1, r => validUTF8 r
    | 2, _ :: r1 => validUTF8 r1
    | 3, _ :: _ :: r2 => validUTF8 r2
    | 4, _ :: _ :: _ :: r3 => validUTF8 r3
    | _, _ => false

/-- A JSON member value as the decoder sees it: null, a boolean, an integer
number, a string (its bytes after unquoting), or anything else (a number
with a fraction or exponent, an array, an object), which no field of `Key`
accepts. -/
inductive JValue where
  | null
  | bool (b : Bool)
  | number (n : Int)
  | string (s : GoString)
  | other
  deriving DecidableEq, Repr

/-- A JSON object: its members in document order. -/
abbrev JObject := List (String × JValue)

/-- Model of `encoding/json`: the member an `omitempty` pointer-to-int field
contributes: none for the nil pointer, the pointed-to number otherwise (a
pointer to 0 is not empty). -/
def intMember (name : String) : Option GoInt → JObject
  | none => []
  | some n => [(name, JValue.number n.val)]

/-- Model of `encoding/json`: the member an `omitempty` pointer-to-string
field contributes: none for the nil pointer, the pointed-to string coerced to
valid UTF-8 otherwise (a pointer to "" is not empty). -/
def stringMember (name : String) : Option GoString → JObject
  | none => []
  | some v => [(name, JValue.string (toValidUTF8 v))]

/-- Model of `json.Marshal` on a `Key`: the members of the object it writes,
fields in declaration order under the tags of the source. -/
def marshalKey (k : Key) : JObject :=
  intMember "id" k.ID ++ stringMember "key" k.Key ++ stringMember "url" k.URL ++
    stringMember "title" k.Title

/-- Model of `encoding/json`: a member value decoded into a `*int` field:
null sets the pointer to nil, an integer in the range of `int` allocates it,
anything else is an error. -/
def decodeInt : JValue → Option (Option GoInt)
  | JValue.null => some none
  | JValue.number n =>
    if h : minInt ≤ n ∧ n ≤ maxInt then some (some ⟨n, h⟩) else none
  | _ => none

/-- Model of `encoding/json`: a member value decoded into a `*string` field:
null sets the pointer to nil, a string allocates it (invalid UTF-8 replaced
by U+FFFD), anything else is an error. -/
def decodeString : JValue → Option (Option GoString)
  | JValue.null => some none
  | JValue.string v => some (some (toValidUTF8 v))
  | _ => none

/-- The case folding the decoder applies to one character of a member name,
as far as ASCII tags are concerned: an upper-case ASCII letter folds to its
lower-case form, the Kelvin sign U+212A to k, the long s U+017F to s, and
every other character to itself. -/
def foldRune (c : Char) : Char :=
  if 'A' ≤ c ∧ c ≤ 'Z' then Char.ofNat (c.toNat + 32)
  else if c = Char.ofNat 0x212A then 'k'
  else if c = Char.ofNat 0x017F then 's'
  else c

/-- Model of the field lookup of `encoding/json`: whether a member name
matches a tag, exactly or under case folding.  The tags of `Key` are lower-case
ASCII and pairwise distinct under folding, so at most one of them matches. -/
def equalFold (name tag : String) : Bool :=
  name.data.map foldRune = tag.data.map foldRune

/-- Model of `encoding/json`: one member decoded into a `Key` cell: the member
is stored in the field whose tag matches its name and skipped when no tag
matches; `none` is a decoding error. -/
def setMember (k : Key) (name : String) (v : JValue) : Option Key :=
  if equalFold name "id" then (decodeInt v).map (fun x => { k with ID := x })
  else if equalFold name "key" then (decodeString v).map (fun x => { k with Key := x })
  else if equalFold name "url" then (decodeString v).map (fun x => { k with URL := x })
  else if equalFold name "title" then (decodeString v).map (fun x => { k with Title := x })
  else some k

/-- Model of `json.Unmarshal` into an existing `Key` cell, member by member;
`none` is a decoding error. -/
def unmarshalInto (k : Key) : JObject → Option Key
  | [] => some k
  | (name, v) :: ms => (setMember k name v).bind (fun k1 => unmarshalInto k1 ms)

/-- Model of `json.Unmarshal` into a fresh `Key` (all fields nil). -/
def unmarshalKey (o : JObject) : Option Key :=
  unmarshalInto newKey o

/-- The names of the fields of `k` that are present, in declaration order
and by their JSON tag. -/
def presentTags (k : Key) : List String :=
  (if k.ID.isSome then ["id"] else []) ++ (if k.Key.isSome then ["key"] else []) ++
    (if k.URL.isSome then ["url"] else []) ++ (if k.Title.isSome then ["title"] else [])

/-- Whether an optional string is absent or valid UTF-8. -/
def validField : Option GoString → Bool
  | none => true
  | some v => validUTF8 v

/-- Whether every present string field of the record is valid UTF-8. -/
def stringsValid (k : Key) : Bool :=
  validField k.Key && validField k.URL && validField k.Title

/-- The record with every byte of a string field that is not part of a valid
UTF-8 sequence replaced by U+FFFD; presence and the id are unchanged. -/
def sanitizeKey (k : Key) : Key :=
  ⟨k.ID, k.Key.map toValidUTF8, k.URL.map toValidUTF8, k.Title.map toValidUTF8⟩

/-! ## Errors, responses and stub clients -/

/-- Modelled from the spec: the error taxonomy of section 7; the Go error
types are declared outside this source file. -/
inductive Error where
  | EncodingError (detail : String)
  | URLError (detail : String)
  | TransportError (detail : String)
  | APIError (status : Nat) (message : String)
  | DecodingError (detail : String)
  deriving DecidableEq, Repr

/-- Whether an error is a `DecodingError`. -/
def Error.isDecodingError : Error → Bool
  | Error.DecodingError _ => true
  | _ => false

/-- Modelled from the spec: response metadata, reduced to the status code;
the `Response` type is declared outside this source file. -/
structure Response where
  StatusCode : Nat
  deriving DecidableEq, Repr

/-- What a stub builder returns as the request: its own arguments. -/
structure Request where
  Method : String
  URL : String
  Body : Body
  deriving DecidableEq, Repr

/-- A stateless stub client: the builder fails with `buildErr` when that is
set and otherwise returns its arguments as the request; the transport answers
every request with `resp` and `doErr` and leaves `write v cell` in the decode
target. -/
structure Stub where
  buildErr : Option Error
  resp : Option Response
  doErr : Option Error
  write : (v : Target) → v.Cell → v.Cell

/-- The client a stub describes. -/
def Stub.client (t : Stub) : Client Unit Request Response Error where
  NewRequest := fun method urlStr body s =>
    match t.buildErr with
    | some e => ((none, some e), s)
    | none => ((some ⟨method, urlStr, body⟩, none), s)
  Do := fun _ v cell s => ((t.resp, t.doErr, t.write v cell), s)

/-- A client whose request builder rejects every path. -/
def badURLClient : Client Unit Request Response Error :=
  Stub.client ⟨some (Error.URLError "cannot resolve path"), none, none, fun _ cell => cell⟩

/-- A client whose transport answers 404 with the payload message
"Not Found" and decodes nothing. -/
def notFoundClient : Client Unit Request Response Error :=
  Stub.client ⟨none, some ⟨404⟩, some (Error.APIError 404 "Not Found"), fun _ cell => cell⟩

/-- A client whose transport cannot connect: no response, a transport error,
decode target untouched. -/
def downClient : Client Unit Request Response Error :=
  Stub.client ⟨none, none, some (Error.TransportError "connection refused"), fun _ cell => cell⟩

/-- The key record of the round-trip scenario: material and title present,
id and url absent. -/
def laptopKey : Key :=
  ⟨none, some (utf8 "ssh-rsa AAA..."), none, some (utf8 "laptop")⟩

/-- A key record whose four fields are present with their zero values: the
id 0 and three empty strings. -/
def zeroValuesKey : Key :=
  ⟨some ⟨0, by decide⟩, some [], some [], some []⟩

/-- A key record whose title is the three bytes `a`, 0xFF, `b`; 0xFF starts no
UTF-8 sequence. -/
def invalidTitleKey : Key :=
  ⟨none, none, none, some [0x61, 0xFF, 0x62]⟩

/-- A client whose transport answers 200 and decodes a stored key (or a
one-element list of it) into the target. -/
def okClient : Client Unit Request Response Error :=
  Stub.client ⟨none, some ⟨200⟩, none, fun v cell =>
    match v, cell with
    | Target.nil, _ => ()
    | Target.keys, _ => some [laptopKey]
    | Target.key, _ => laptopKey⟩

end Github

/-! ## Auxiliary facts -/

namespace Github

section Logs

variable {σ Req Resp Err : Type}

theorem ListKeys_traced (c : Client σ Req Resp Err) (user : String) (s : σ)
    (log : List (Event Req)) :
    ListKeys c.traced user (s, log) =
      ((ListKeys c user s).1, (ListKeys c user s).2,
        log ++ callEvents "GET" (listKeysPath user) Body.nil Target.keys
          (c.NewRequest "GET" (listKeysPath user) Body.nil s).1) := by
  rcases h : c.NewRequest "GET" (listKeysPath user) Body.nil s with ⟨⟨req, err⟩, s1⟩
  cases err <;> simp [ListKeys, Client.traced, callEvents, h]

theorem GetKey_traced (c : Client σ Req Resp Err) (id : Int) (s : σ)
    (log : List (Event Req)) :
    GetKey c.traced id (s, log) =
      ((GetKey c id s).1, (GetKey c id s).2,
        log ++ callEvents "GET" (keyPath id) Body.nil Target.key
          (c.NewRequest "GET" (keyPath id) Body.nil s).1) := by
  rcases h : c.NewRequest "GET" (keyPath id) Body.nil s with ⟨⟨req, err⟩, s1⟩
  cases err <;> simp [GetKey, Client.traced, callEvents, h]

theorem CreateKey_traced (c : Client σ Req Resp Err) (key : Option Key) (s : σ)
    (log : List (Event Req)) :
    CreateKey c.traced key (s, log) =
      ((CreateKey c key s).1, (CreateKey c key s).2,
        log ++ callEvents "POST" "user/keys" (Body.key key) Target.key
          (c.NewRequest "POST" "user/keys" (Body.key key) s).1) := by
  rcases h : c.NewRequest "POST" "user/keys" (Body.key key) s with ⟨⟨req, err⟩, s1⟩
  cases err <;> simp [CreateKey, Client.traced, callEvents, h]

theorem EditKey_traced (c : Client σ Req Resp Err) (id : Int) (key : Option Key) (s : σ)
    (log : List (Event Req)) :
    EditKey c.traced id key (s, log) =
      ((EditKey c id key s).1, (EditKey c id key s).2,
        log ++ callEvents "PATCH" (keyPath id) (Body.key key) Target.key
          (c.NewRequest "PATCH" (keyPath id) (Body.key key) s).1) := by
  rcases h : c.NewRequest "PATCH" (keyPath id) (Body.key key) s with ⟨⟨req, err⟩, s1⟩
  cases err <;> simp [EditKey, Client.traced, callEvents, h]

theorem DeleteKey_traced (c : Client σ Req Resp Err) (id : Int) (s : σ)
    (log : List (Event Req)) :
    DeleteKey c.traced id (s, log) =
      ((DeleteKey c id s).1, (DeleteKey c id s).2,
        log ++ callEvents "DELETE" (keyPath id) Body.nil Target.nil
          (c.NewRequest "DELETE" (keyPath id) Body.nil s).1) := by
  rcases h : c.NewRequest "DELETE" (keyPath id) Body.nil s with ⟨⟨req, err⟩, s1⟩
  cases err <;> simp [DeleteKey, Client.traced, callEvents, h]

theorem filter_isNewRequest_callEvents (method urlStr : String) (body : Body) (v : Target)
    (built : Option Req × Option Err) :
    (callEvents method urlStr body v built).filter Event.isNewRequest =
      [Event.newRequest method urlStr body] := by
  rcases built with ⟨req, err⟩
  cases err <;> simp [callEvents, Event.isNewRequest]

theorem filter_isDo_callEvents (method urlStr : String) (body : Body) (v : Target)
    (built : Option Req × Option Err) :
    (callEvents method urlStr body v built).filter Event.isDo =
      if built.2.isSome then [] else [Event.doCall built.1 v] := by
  rcases built with ⟨req, err⟩
  cases err <;> simp [callEvents, Event.isDo]

theorem builderCalls_callEvents (method urlStr : String) (body : Body) (v : Target)
    (built : Option Req × Option Err) :
    builderCalls (callEvents method urlStr body v built) = 1 := by
  rcases built with ⟨req, err⟩
  cases err <;> simp [builderCalls, callEvents, Event.isNewRequest]

theorem transportCalls_callEvents (method urlStr : String) (body : Body) (v : Target)
    (built : Option Req × Option Err) :
    transportCalls (callEvents method urlStr body v built) =
      if built.2.isSome then 0 else 1 := by
  rcases built with ⟨req, err⟩
  cases err <;> simp [transportCalls, callEvents, Event.isDo]

theorem ListKeys_of_buildErr (c : Client σ Req Resp Err) (user : String) (s : σ) (e : Err)
    (h : (c.NewRequest "GET" (listKeysPath user) Body.nil s).1.2 = some e) :
    (ListKeys c user s).1 = (none, none, some e) := by
  rcases hb : c.NewRequest "GET" (listKeysPath user) Body.nil s with ⟨⟨req, err⟩, s1⟩
  rw [hb] at h
  simp only at h
  subst h
  simp [ListKeys, hb]

theorem GetKey_of_buildErr (c : Client σ Req Resp Err) (id : Int) (s : σ) (e : Err)
    (h : (c.NewRequest "GET" (keyPath id) Body.nil s).1.2 = some e) :
    (GetKey c id s).1 = (none, none, some e) := by
  rcases hb : c.NewRequest "GET" (keyPath id) Body.nil s with ⟨⟨req, err⟩, s1⟩
  rw [hb] at h
  simp only at h
  subst h
  simp [GetKey, hb]

theorem CreateKey_of_buildErr (c : Client σ Req Resp Err) (key : Option Key) (s : σ) (e : Err)
    (h : (c.NewRequest "POST" "user/keys" (Body.key key) s).1.2 = some e) :
    (CreateKey c key s).1 = (none, none, some e) := by
  rcases hb : c.NewRequest "POST" "user/keys" (Body.key key) s with ⟨⟨req, err⟩, s1⟩
  rw [hb] at h
  simp only at h
  subst h
  simp [CreateKey, hb]

theorem EditKey_of_buildErr (c : Client σ Req Resp Err) (id : Int) (key : Option Key) (s : σ)
    (e : Err) (h : (c.NewRequest "PATCH" (keyPath id) (Body.key key) s).1.2 = some e) :
    (EditKey c id key s).1 = (none, none, some e) := by
  rcases hb : c.NewRequest "PATCH" (keyPath id) (Body.key key) s with ⟨⟨req, err⟩, s1⟩
  rw [hb] at h
  simp only at h
  subst h
  simp [EditKey, hb]

theorem DeleteKey_of_buildErr (c : Client σ Req Resp Err) (id : Int) (s : σ) (e : Err)
    (h : (c.NewRequest "DELETE" (keyPath id) Body.nil s).1.2 = some e) :
    (DeleteKey c id s).1 = (none, some e) := by
  rcases hb : c.NewRequest "DELETE" (keyPath id) Body.nil s with ⟨⟨req, err⟩, s1⟩
  rw [hb] at h
  simp only at h
  subst h
  simp [DeleteKey, hb]

theorem ListKeys_of_built (c : Client σ Req Resp Err) (user : String) (s : σ)
    (h : (c.NewRequest "GET" (listKeysPath user) Body.nil s).1.2 = none) :
    (ListKeys c user s).1 =
      ((c.Do (c.NewRequest "GET" (listKeysPath user) Body.nil s).1.1 Target.keys none
          (c.NewRequest "GET" (listKeysPath user) Body.nil s).2).1.2.2,
        (c.Do (c.NewRequest "GET" (listKeysPath user) Body.nil s).1.1 Target.keys none
          (c.NewRequest "GET" (listKeysPath user) Body.nil s).2).1.1,
        (c.Do (c.NewRequest "GET" (listKeysPath user) Body.nil s).1.1 Target.keys none
          (c.NewRequest "GET" (listKeysPath user) Body.nil s).2).1.2.1) := by
  rcases hb : c.NewRequest "GET" (listKeysPath user) Body.nil s with ⟨⟨req, err⟩, s1⟩
  rw [hb] at h
  simp only at h
  subst h
  simp [ListKeys, hb]

theorem GetKey_of_built (c : Client σ Req Resp Err) (id : Int) (s : σ)
    (h : (c.NewRequest "GET" (keyPath id) Body.nil s).1.2 = none) :
    (GetKey c id s).1 =
      (some (c.Do (c.NewRequest "GET" (keyPath id) Body.nil s).1.1 Target.key newKey
          (c.NewRequest "GET" (keyPath id) Body.nil s).2).1.2.2,
        (c.Do (c.NewRequest "GET" (keyPath id) Body.nil s).1.1 Target.key newKey
          (c.NewRequest "GET" (keyPath id) Body.nil s).2).1.1,
        (c.Do (c.NewRequest "GET" (keyPath id) Body.nil s).1.1 Target.key newKey
          (c.NewRequest "GET" (keyPath id) Body.nil s).2).1.2.1) := by
  rcases hb : c.NewRequest "GET" (keyPath id) Body.nil s with ⟨⟨req, err⟩, s1⟩
  rw [hb] at h
  simp only at h
  subst h
  simp [GetKey, hb]

theorem CreateKey_of_built (c : Client σ Req Resp Err) (key : Option Key) (s : σ)
    (h : (c.NewRequest "POST" "user/keys" (Body.key key) s).1.2 = none) :
    (CreateKey c key s).1 =
      (some (c.Do (c.NewRequest "POST" "user/keys" (Body.key key) s).1.1 Target.key newKey
          (c.NewRequest "POST" "user/keys" (Body.key key) s).2).1.2.2,
        (c.Do (c.NewRequest "POST" "user/keys" (Body.key key) s).1.1 Target.key newKey
          (c.NewRequest "POST" "user/keys" (Body.key key) s).2).1.1,
        (c.Do (c.NewRequest "POST" "user/keys" (Body.key key) s).1.1 Target.key newKey
          (c.NewRequest "POST" "user/keys" (Body.key key) s).2).1.2.1) := by
  rcases hb : c.NewRequest "POST" "user/keys" (Body.key key) s with ⟨⟨req, err⟩, s1⟩
  rw [hb] at h
  simp only at h
  subst h
  simp [CreateKey, hb]

theorem EditKey_of_built (c : Client σ Req Resp Err) (id : Int) (key : Option Key) (s : σ)
    (h : (c.NewRequest "PATCH" (keyPath id) (Body.key key) s).1.2 = none) :
    (EditKey c id key s).1 =
      (some (c.Do (c.NewRequest "PATCH" (keyPath id) (Body.key key) s).1.1 Target.key newKey
          (c.NewRequest "PATCH" (keyPath id) (Body.key key) s).2).1.2.2,
        (c.Do (c.NewRequest "PATCH" (keyPath id) (Body.key key) s).1.1 Target.key newKey
          (c.NewRequest "PATCH" (keyPath id) (Body.key key) s).2).1.1,
        (c.Do (c.NewRequest "PATCH" (keyPath id) (Body.key key) s).1.1 Target.key newKey
          (c.NewRequest "PATCH" (keyPath id) (Body.key key) s).2).1.2.1) := by
  rcases hb : c.NewRequest "PATCH" (keyPath id) (Body.key key) s with ⟨⟨req, err⟩, s1⟩
  rw [hb] at h
  simp only at h
  subst h
  simp [EditKey, hb]

theorem DeleteKey_of_built (c : Client σ Req Resp Err) (id : Int) (s : σ)
    (h : (c.NewRequest "DELETE" (keyPath id) Body.nil s).1.2 = none) :
    (DeleteKey c id s).1 =
      ((c.Do (c.NewRequest "DELETE" (keyPath id) Body.nil s).1.1 Target.nil ()
          (c.NewRequest "DELETE" (keyPath id) Body.nil s).2).1.1,
        (c.Do (c.NewRequest "DELETE" (keyPath id) Body.nil s).1.1 Target.nil ()
          (c.NewRequest "DELETE" (keyPath id) Body.nil s).2).1.2.1) := by
  rcases hb : c.NewRequest "DELETE" (keyPath id) Body.nil s with ⟨⟨req, err⟩, s1⟩
  rw [hb] at h
  simp only at h
  subst h
  simp [DeleteKey, hb]

end Logs

/-! ### Decimal rendering -/

theorem toDigitsCore_eq_digits (fuel : Nat) : ∀ (n : Nat) (ds : List Char), 0 < n → n < fuel →
    Nat.toDigitsCore 10 fuel n ds = (Nat.digits 10 n).reverse.map Nat.digitChar ++ ds := by
  induction fuel with
  | zero => intro n ds _ h; omega
  | succ fuel ih =>
    intro n ds hpos hlt
    have hd : Nat.digits 10 n = (n % 10) :: Nat.digits 10 (n / 10) :=
      Nat.digits_def' (by decide) hpos
    by_cases h0 : n / 10 = 0
    · simp [Nat.toDigitsCore, h0, hd]
    · have h1 : 0 < n / 10 := Nat.pos_of_ne_zero h0
      have h2 : n / 10 < fuel := by omega
      simp [Nat.toDigitsCore, h0, hd, ih (n / 10) _ h1 h2]

theorem toDigits_eq_decimalDigits (n : Nat) :
    Nat.toDigits 10 n = (decimalDigits n).map Nat.digitChar := by
  unfold decimalDigits
  by_cases h : n = 0
  · subst h; decide
  · simp only [h, if_false]
    have := toDigitsCore_eq_digits (n + 1) n [] (Nat.pos_of_ne_zero h) (Nat.lt_succ_self n)
    simpa [Nat.toDigits] using this

theorem decimalDigits_lt (n d : Nat) (h : d ∈ decimalDigits n) : d < 10 := by
  unfold decimalDigits at h
  by_cases h0 : n = 0
  · simp [h0] at h; omega
  · simp only [h0, if_false, List.mem_reverse] at h
    exact Nat.digits_lt_base (by decide) h

theorem ofDigits_decimalDigits (n : Nat) : Nat.ofDigits 10 (decimalDigits n).reverse = n := by
  unfold decimalDigits
  by_cases h0 : n = 0
  · subst h0; simp [Nat.ofDigits]
  · simp only [h0, if_false, List.reverse_reverse]
    exact Nat.ofDigits_digits 10 n

theorem decimalDigits_ne_nil (n : Nat) : decimalDigits n ≠ [] := by
  unfold decimalDigits
  by_cases h0 : n = 0
  · simp [h0]
  · simp only [h0, if_false, ne_eq, List.reverse_eq_nil_iff]
    exact fun h => h0 (Nat.digits_eq_nil_iff_eq_zero.mp h)

theorem digitChar_inj : ∀ a, a < 10 → ∀ b, b < 10 → Nat.digitChar a = Nat.digitChar b → a = b := by
  decide

theorem digitChar_ne_minus : ∀ a, a < 10 → Nat.digitChar a ≠ '-' := by
  decide

theorem map_digitChar_inj : ∀ (l1 l2 : List Nat), (∀ d ∈ l1, d < 10) → (∀ d ∈ l2, d < 10) →
    l1.map Nat.digitChar = l2.map Nat.digitChar → l1 = l2
  | [], [], _, _, _ => rfl
  | [], _ :: _, _, _, h => by simp at h
  | _ :: _, [], _, _, h => by simp at h
  | a :: l1, b :: l2, h1, h2, h => by
    simp only [List.map_cons, List.cons.injEq] at h
    have hab := digitChar_inj a (h1 a (by simp)) b (h2 b (by simp)) h.1
    have := map_digitChar_inj l1 l2 (fun d hd => h1 d (by simp [hd]))
      (fun d hd => h2 d (by simp [hd])) h.2
    rw [hab, this]

theorem toDigits_inj {n m : Nat} (h : Nat.toDigits 10 n = Nat.toDigits 10 m) : n = m := by
  rw [toDigits_eq_decimalDigits, toDigits_eq_decimalDigits] at h
  have h1 := map_digitChar_inj _ _ (decimalDigits_lt n) (decimalDigits_lt m) h
  rw [← ofDigits_decimalDigits n, ← ofDigits_decimalDigits m, h1]

theorem toDigits_ne_minus_cons (n : Nat) (rest : List Char) :
    Nat.toDigits 10 n ≠ '-' :: rest := by
  rw [toDigits_eq_decimalDigits]
  intro h
  cases hd : decimalDigits n with
  | nil => exact decimalDigits_ne_nil n hd
  | cons d ds =>
    rw [hd] at h
    simp only [List.map_cons, List.cons.injEq] at h
    exact digitChar_ne_minus d (decimalDigits_lt n d (by simp [hd])) h.1

theorem formatInt_eq_decimal (i : Int) : formatInt i = decimal i := by
  cases i with
  | ofNat n =>
    have h : ¬ ((Int.ofNat n) < 0) := by simp
    simp only [formatInt, decimal, h, if_false, toDigits_eq_decimalDigits]
    simp
  | negSucc n =>
    have h : (Int.negSucc n) < 0 := Int.negSucc_lt_zero n
    simp only [formatInt, decimal, h, if_true, toDigits_eq_decimalDigits]
    simp [Int.natAbs]

theorem formatInt_injective {i j : Int} (h : formatInt i = formatInt j) : i = j := by
  cases i with
  | ofNat n =>
    cases j with
    | ofNat m =>
      have h1 := congrArg String.data h
      simp only [formatInt] at h1
      rw [toDigits_inj h1]
    | negSucc m =>
      exfalso
      have h1 := congrArg String.data h
      simp only [formatInt, String.data_append] at h1
      exact toDigits_ne_minus_cons n _ h1
  | negSucc n =>
    cases j with
    | ofNat m =>
      exfalso
      have h1 := congrArg String.data h
      simp only [formatInt, String.data_append] at h1
      exact toDigits_ne_minus_cons m _ h1.symm
    | negSucc m =>
      simp only [formatInt] at h
      have h1 := congrArg String.data h
      simp only [String.data_append, List.append_cancel_left_eq] at h1
      have h2 : n = m := Nat.succ_injective (toDigits_inj h1)
      rw [h2]

/-! ### Strings -/

theorem string_append_left_cancel {a b c : String} (h : a ++ b = a ++ c) : b = c := by
  have h1 := congrArg String.data h
  simp only [String.data_append] at h1
  exact String.ext (List.append_cancel_left h1)

theorem string_append_right_cancel {a b c : String} (h : a ++ c = b ++ c) : a = b := by
  have h1 := congrArg String.data h
  simp only [String.data_append] at h1
  exact String.ext (List.append_cancel_right h1)

theorem users_path_ne_double_slash (user : String) (h : user ≠ "") :
    "users/" ++ user ++ "/keys" ≠ "users//keys" := by
  intro h1
  have h2 : "users/" ++ user ++ "/keys" = "users/" ++ "" ++ "/keys" := by
    rw [h1]; decide
  exact h (string_append_left_cancel (string_append_right_cancel h2))

theorem listKeysPath_ne_double_slash (user : String) : listKeysPath user ≠ "users//keys" := by
  unfold listKeysPath
  by_cases h : user = ""
  · subst h; decide
  · simp only [ne_eq, h, not_false_eq_true, if_true]
    exact users_path_ne_double_slash user h

theorem user_keys_ne_users_path (v : String) : "user/keys" ≠ "users/" ++ v ++ "/keys" := by
  intro h
  have h1 := congrArg String.data h
  have e1 : "user/keys".data = ['u', 's', 'e', 'r', '/', 'k', 'e', 'y', 's'] := rfl
  have e2 : "users/".data = ['u', 's', 'e', 'r', 's', '/'] := rfl
  rw [String.data_append, String.data_append, e1, e2] at h1
  simp at h1

theorem users_path_ne_keyPath (u : String) (id : Int) :
    "users/" ++ u ++ "/keys" ≠ keyPath id := by
  intro h
  have h1 := congrArg String.data h
  have e1 : "user/keys/".data = ['u', 's', 'e', 'r', '/', 'k', 'e', 'y', 's', '/'] := rfl
  have e2 : "users/".data = ['u', 's', 'e', 'r', 's', '/'] := rfl
  rw [keyPath, String.data_append, String.data_append, String.data_append, e1, e2] at h1
  simp at h1

theorem user_keys_ne_keyPath (id : Int) : "user/keys" ≠ keyPath id := by
  intro h
  have h1 := congrArg String.data h
  have e1 : "user/keys/".data = ['u', 's', 'e', 'r', '/', 'k', 'e', 'y', 's', '/'] := rfl
  have e2 : "user/keys".data = ['u', 's', 'e', 'r', '/', 'k', 'e', 'y', 's'] := rfl
  rw [keyPath, String.data_append, e1, e2] at h1
  simp at h1

theorem listKeysPath_eq (user : String) :
    listKeysPath user = if user = "" then "user/keys" else "users/" ++ user ++ "/keys" := by
  unfold listKeysPath
  by_cases h : user = "" <;> simp [h]

theorem listKeysPath_injective : Function.Injective listKeysPath := by
  intro u v h
  rw [listKeysPath_eq, listKeysPath_eq] at h
  by_cases hu : u = "" <;> by_cases hv : v = ""
  · rw [hu, hv]
  · simp only [hu, hv, if_true, if_false] at h
    exact absurd h (user_keys_ne_users_path v)
  · simp only [hu, hv, if_true, if_false] at h
    exact absurd h.symm (user_keys_ne_users_path u)
  · simp only [hu, hv, if_false] at h
    exact string_append_left_cancel (string_append_right_cancel h)

theorem keyPath_injective : Function.Injective keyPath := by
  intro i j h
  exact formatInt_injective (string_append_left_cancel h)

theorem listKeysPath_ne_keyPath (u : String) (id : Int) : listKeysPath u ≠ keyPath id := by
  rw [listKeysPath_eq]
  by_cases hu : u = ""
  · simp only [hu, if_true]
    exact user_keys_ne_keyPath id
  · simp only [hu, if_false]
    exact users_path_ne_keyPath u id

/-! ### UTF-8 coercion -/

theorem toValidUTF8_of_valid (s : GoString) (h : validUTF8 s = true) : toValidUTF8 s = s := by
  induction s using toValidUTF8.induct with
  | case1 => rfl
  | case2 b0 r h1 ih =>
    simp only [validUTF8, h1] at h
    simp only [toValidUTF8, h1, ih h]
  | case3 b0 b1 r1 h2 ih =>
    simp only [validUTF8, h2] at h
    simp only [toValidUTF8, h2, ih h]
  | case4 b0 b1 b2 r2 h3 ih =>
    simp only [validUTF8, h3] at h
    simp only [toValidUTF8, h3, ih h]
  | case5 b0 b1 b2 b3 r3 h4 ih =>
    simp only [validUTF8, h4] at h
    simp only [toValidUTF8, h4, ih h]
  | case6 b0 r n1 n2 n3 n4 ih =>
    exfalso
    unfold validUTF8 at h
    split at h
    · exact n1 (by assumption)
    · exact n2 _ _ (by assumption) rfl
    · exact n3 _ _ _ (by assumption) rfl
    · exact n4 _ _ _ _ (by assumption) rfl
    · exact Bool.false_ne_true h


theorem runeLen_ascii (b0 : UInt8) (t : GoString) (hl : lead b0 = Lead.ascii) :
    runeLen (b0 :: t) = 1 := by
  simp [runeLen, hl]

theorem runeLen_invalid (b0 : UInt8) (t : GoString) (hl : lead b0 = Lead.invalid) :
    runeLen (b0 :: t) = 0 := by
  simp [runeLen, hl]

theorem runeLen_two (b0 : UInt8) (t : GoString) (hl : lead b0 = Lead.two) :
    runeLen (b0 :: t) =
      match t with
      | b1 :: _ => if inRange 0x80 0xBF b1 then 2 else 0
      | _ => 0 := by
  cases t <;> simp [runeLen, hl]

theorem runeLen_three (b0 lo hi : UInt8) (t : GoString) (hl : lead b0 = Lead.three lo hi) :
    runeLen (b0 :: t) =
      match t with
      | b1 :: b2 :: _ => if inRange lo hi b1 && inRange 0x80 0xBF b2 then 3 else 0
      | _ => 0 := by
  rcases t with _ | ⟨b1, _ | ⟨b2, t⟩⟩ <;> simp [runeLen, hl]

theorem runeLen_four (b0 lo hi : UInt8) (t : GoString) (hl : lead b0 = Lead.four lo hi) :
    runeLen (b0 :: t) =
      match t with
      | b1 :: b2 :: b3 :: _ =>
        if inRange lo hi b1 && inRange 0x80 0xBF b2 && inRange 0x80 0xBF b3 then 4 else 0
      | _ => 0 := by
  rcases t with _ | ⟨b1, _ | ⟨b2, _ | ⟨b3, t⟩⟩⟩ <;> simp [runeLen, hl]

theorem runeLen_one_tail (b0 : UInt8) (r t : GoString)
    (h : runeLen (b0 :: r) = 1) : runeLen (b0 :: t) = 1 := by
  cases hl : lead b0 with
  | ascii => exact runeLen_ascii b0 t hl
  | invalid =>
    rw [runeLen_invalid b0 _ hl] at h
    omega
  | two =>
    rw [runeLen_two b0 _ hl] at h
    split at h <;> first | omega | (split at h <;> omega)
  | three lo hi =>
    rw [runeLen_three b0 lo hi _ hl] at h
    split at h <;> first | omega | (split at h <;> omega)
  | four lo hi =>
    rw [runeLen_four b0 lo hi _ hl] at h
    split at h <;> first | omega | (split at h <;> omega)

theorem runeLen_two_tail (b0 b1 : UInt8) (r t : GoString)
    (h : runeLen (b0 :: b1 :: r) = 2) : runeLen (b0 :: b1 :: t) = 2 := by
  cases hl : lead b0 with
  | ascii =>
    rw [runeLen_ascii b0 _ hl] at h
    omega
  | invalid =>
    rw [runeLen_invalid b0 _ hl] at h
    omega
  | two =>
    rw [runeLen_two b0 _ hl] at h ⊢
    exact h
  | three lo hi =>
    rw [runeLen_three b0 lo hi _ hl] at h
    split at h <;> first | omega | (split at h <;> omega)
  | four lo hi =>
    rw [runeLen_four b0 lo hi _ hl] at h
    split at h <;> first | omega | (split at h <;> omega)

theorem runeLen_three_tail (b0 b1 b2 : UInt8) (r t : GoString)
    (h : runeLen (b0 :: b1 :: b2 :: r) = 3) : runeLen (b0 :: b1 :: b2 :: t) = 3 := by
  cases hl : lead b0 with
  | ascii =>
    rw [runeLen_ascii b0 _ hl] at h
    omega
  | invalid =>
    rw [runeLen_invalid b0 _ hl] at h
    omega
  | two =>
    rw [runeLen_two b0 _ hl] at h
    split at h <;> first | omega | (split at h <;> omega)
  | three lo hi =>
    rw [runeLen_three b0 lo hi _ hl] at h ⊢
    exact h
  | four lo hi =>
    rw [runeLen_four b0 lo hi _ hl] at h
    split at h <;> first | omega | (split at h <;> omega)

theorem runeLen_four_tail (b0 b1 b2 b3 : UInt8) (r t : GoString)
    (h : runeLen (b0 :: b1 :: b2 :: b3 :: r) = 4) : runeLen (b0 :: b1 :: b2 :: b3 :: t) = 4 := by
  cases hl : lead b0 with
  | ascii =>
    rw [runeLen_ascii b0 _ hl] at h
    omega
  | invalid =>
    rw [runeLen_invalid b0 _ hl] at h
    omega
  | two =>
    rw [runeLen_two b0 _ hl] at h
    split at h <;> first | omega | (split at h <;> omega)
  | three lo hi =>
    rw [runeLen_three b0 lo hi _ hl] at h
    split at h <;> first | omega | (split at h <;> omega)
  | four lo hi =>
    rw [runeLen_four b0 lo hi _ hl] at h ⊢
    exact h

theorem validUTF8_toValidUTF8 (s : GoString) : validUTF8 (toValidUTF8 s) = true := by
  induction s using toValidUTF8.induct with
  | case1 => rfl
  | case2 b0 r h1 ih =>
    simp only [toValidUTF8, h1]
    simp only [validUTF8, runeLen_one_tail b0 r _ h1, ih]
  | case3 b0 b1 r1 h2 ih =>
    simp only [toValidUTF8, h2]
    simp only [validUTF8, runeLen_two_tail b0 b1 r1 _ h2, ih]
  | case4 b0 b1 b2 r2 h3 ih =>
    simp only [toValidUTF8, h3]
    simp only [validUTF8, runeLen_three_tail b0 b1 b2 r2 _ h3, ih]
  | case5 b0 b1 b2 b3 r3 h4 ih =>
    simp only [toValidUTF8, h4]
    simp only [validUTF8, runeLen_four_tail b0 b1 b2 b3 r3 _ h4, ih]
  | case6 b0 r n1 n2 n3 n4 ih =>
    have hrepl : toValidUTF8 (b0 :: r) = 0xEF :: 0xBF :: 0xBD :: toValidUTF8 r := by
      simp only [toValidUTF8]
      rfl
    rw [hrepl]
    have h3 : runeLen (0xEF :: 0xBF :: 0xBD :: toValidUTF8 r) = 3 := rfl
    simp only [validUTF8, h3, ih]

theorem toValidUTF8_idem (s : GoString) : toValidUTF8 (toValidUTF8 s) = toValidUTF8 s :=
  toValidUTF8_of_valid _ (validUTF8_toValidUTF8 s)

/-! ### JSON -/

theorem equalFold_tags :
    equalFold "id" "id" = true ∧ equalFold "key" "id" = false ∧
      equalFold "key" "key" = true ∧ equalFold "url" "id" = false ∧
      equalFold "url" "key" = false ∧ equalFold "url" "url" = true ∧
      equalFold "title" "id" = false ∧ equalFold "title" "key" = false ∧
      equalFold "title" "url" = false ∧ equalFold "title" "title" = true := by
  decide

theorem decodeInt_number (n : GoInt) : decodeInt (JValue.number n.val) = some (some n) := by
  simp only [decodeInt]
  rw [dif_pos n.property]

theorem decodeString_coerced (v : GoString) :
    decodeString (JValue.string (toValidUTF8 v)) = some (some (toValidUTF8 v)) := by
  simp only [decodeString, toValidUTF8_idem]

theorem unmarshal_marshal (k : Key) : unmarshalKey (marshalKey k) = some (sanitizeKey k) := by
  obtain ⟨e1, e2, e3, e4, e5, e6, e7, e8, e9, e10⟩ := equalFold_tags
  rcases k with ⟨id, key, url, title⟩
  cases id <;> cases key <;> cases url <;> cases title <;>
    simp [unmarshalKey, marshalKey, unmarshalInto, setMember, intMember, stringMember,
      decodeInt_number, decodeString_coerced, newKey, sanitizeKey,
      e1, e2, e3, e4, e5, e6, e7, e8, e9, e10]

theorem validField_map (f : Option GoString) (h : validField f = true) :
    f.map toValidUTF8 = f := by
  cases f with
  | none => rfl
  | some v => simp only [Option.map_some', toValidUTF8_of_valid v h]

theorem sanitizeKey_of_valid (k : Key) (h : stringsValid k = true) : sanitizeKey k = k := by
  rcases k with ⟨id, key, url, title⟩
  simp only [stringsValid, Bool.and_eq_true] at h
  simp only [sanitizeKey, validField_map key h.1.1, validField_map url h.1.2,
    validField_map title h.2]

theorem marshal_tags (k : Key) : (marshalKey k).map Prod.fst = presentTags k := by
  rcases k with ⟨id, key, url, title⟩
  cases id <;> cases key <;> cases url <;> cases title <;>
    simp [marshalKey, presentTags, intMember, stringMember]

theorem marshal_no_null (k : Key) : ∀ m ∈ marshalKey k, m.2 ≠ JValue.null := by
  rcases k with ⟨id, key, url, title⟩
  cases id <;> cases key <;> cases url <;> cases title <;>
    simp [marshalKey, intMember, stringMember]

theorem marshal_lookup (k : Key) :
    (marshalKey k).lookup "id" = k.ID.map (fun n => JValue.number n.val) ∧
      (marshalKey k).lookup "key" = k.Key.map (fun v => JValue.string (toValidUTF8 v)) ∧
      (marshalKey k).lookup "url" = k.URL.map (fun v => JValue.string (toValidUTF8 v)) ∧
      (marshalKey k).lookup "title" =
        k.Title.map (fun v => JValue.string (toValidUTF8 v)) := by
  rcases k with ⟨id, key, url, title⟩
  cases id <;> cases key <;> cases url <;> cases title <;>
    simp [marshalKey, intMember, stringMember, List.lookup]

end Github

/-! ## Paths and requests of the operations -/

namespace Github

/-- C1: for every user string, one call of `ListKeys` makes exactly one call
of the request builder, with method GET, no body, and the path
`users/<user>/keys` for a non-empty user and `user/keys` for the empty one; so
no request is ever built for the path `users//keys`. -/
theorem ListKeys_builds_one_GET {σ Req Resp Err : Type} (c : Client σ Req Resp Err)
    (user : String) (s : σ) :
    (ListKeys c.traced user (s, [])).2.2.filter Event.isNewRequest =
        [Event.newRequest "GET"
          (if user = "" then "user/keys" else "users/" ++ user ++ "/keys") Body.nil] ∧
      (∀ method urlStr body,
        Event.newRequest method urlStr body ∈ (ListKeys c.traced user (s, [])).2.2 →
          urlStr ≠ "users//keys") := by
  have hp : listKeysPath user =
      (if user = "" then "user/keys" else "users/" ++ user ++ "/keys") := by
    unfold listKeysPath
    by_cases h : user = "" <;> simp [h]
  have hlog := ListKeys_traced c user s []
  have hfilter : (ListKeys c.traced user (s, [])).2.2.filter Event.isNewRequest =
      [Event.newRequest "GET" (listKeysPath user) Body.nil] := by
    rw [hlog]
    simp only [List.nil_append]
    exact filter_isNewRequest_callEvents _ _ _ _ _
  refine ⟨by rw [hfilter, hp], ?_⟩
  intro method urlStr body hmem
  have hmem2 : Event.newRequest method urlStr body ∈
      (ListKeys c.traced user (s, [])).2.2.filter Event.isNewRequest :=
    List.mem_filter.mpr ⟨hmem, rfl⟩
  rw [hfilter] at hmem2
  simp only [List.mem_singleton, Event.newRequest.injEq] at hmem2
  rw [hmem2.2.1]
  exact listKeysPath_ne_double_slash user

/-- C2: for every integer id and every key pointer, `GetKey`, `EditKey` and
`DeleteKey` each make exactly one request-builder call, for the path
`user/keys/` followed by the decimal rendering of id, with methods GET, PATCH
and DELETE; `GetKey` and `DeleteKey` pass no body and `EditKey` passes its key
argument.  The rendering is spelled out at 0, at a negative and at a positive
id. -/
theorem key_operations_build_requests {σ Req Resp Err : Type} (c : Client σ Req Resp Err)
    (id : Int) (k : Option Key) (s : σ) :
    (GetKey c.traced id (s, [])).2.2.filter Event.isNewRequest =
        [Event.newRequest "GET" ("user/keys/" ++ decimal id) Body.nil] ∧
      (EditKey c.traced id k (s, [])).2.2.filter Event.isNewRequest =
        [Event.newRequest "PATCH" ("user/keys/" ++ decimal id) (Body.key k)] ∧
      (DeleteKey c.traced id (s, [])).2.2.filter Event.isNewRequest =
        [Event.newRequest "DELETE" ("user/keys/" ++ decimal id) Body.nil] ∧
      "user/keys/" ++ decimal 0 = "user/keys/0" ∧
      "user/keys/" ++ decimal (-7) = "user/keys/-7" ∧
      "user/keys/" ++ decimal 42 = "user/keys/42" := by
  have hp : keyPath id = "user/keys/" ++ decimal id := by
    rw [keyPath, formatInt_eq_decimal]
  refine ⟨?_, ?_, ?_, ?_, ?_, ?_⟩
  · rw [GetKey_traced, ← hp]
    exact filter_isNewRequest_callEvents _ _ _ _ _
  · rw [EditKey_traced, ← hp]
    exact filter_isNewRequest_callEvents _ _ _ _ _
  · rw [DeleteKey_traced, ← hp]
    exact filter_isNewRequest_callEvents _ _ _ _ _
  · rw [← formatInt_eq_decimal]; decide
  · rw [← formatInt_eq_decimal]; decide
  · rw [← formatInt_eq_decimal]; decide

/-- C10: the request paths are collision-free.  The path `ListKeys` hands
to the request builder is `listKeysPath user`, an injective function of the
user string (the empty string included); the path `GetKey`, `EditKey` and
`DeleteKey` hand to it is `keyPath id`, an injective function of the id; and
no `ListKeys` path equals a `user/keys/<id>` path. -/
theorem request_paths_collision_free {σ Req Resp Err : Type} (c : Client σ Req Resp Err)
    (user : String) (id : Int) (key : Option Key) (s : σ) :
    ((ListKeys c.traced user (s, [])).2.2.filter Event.isNewRequest =
        [Event.newRequest "GET" (listKeysPath user) Body.nil] ∧
      (GetKey c.traced id (s, [])).2.2.filter Event.isNewRequest =
        [Event.newRequest "GET" (keyPath id) Body.nil] ∧
      (EditKey c.traced id key (s, [])).2.2.filter Event.isNewRequest =
        [Event.newRequest "PATCH" (keyPath id) (Body.key key)] ∧
      (DeleteKey c.traced id (s, [])).2.2.filter Event.isNewRequest =
        [Event.newRequest "DELETE" (keyPath id) Body.nil]) ∧
      (∀ u, listKeysPath u = if u = "" then "user/keys" else "users/" ++ u ++ "/keys") ∧
      (∀ i, keyPath i = "user/keys/" ++ decimal i) ∧
      (∀ u v, listKeysPath u = listKeysPath v → u = v) ∧
      (∀ i j, keyPath i = keyPath j → i = j) ∧
      (∀ u i, listKeysPath u ≠ keyPath i) := by
  refine ⟨⟨?_, ?_, ?_, ?_⟩, listKeysPath_eq, ?_, ?_, ?_, listKeysPath_ne_keyPath⟩
  · rw [ListKeys_traced]
    exact filter_isNewRequest_callEvents _ _ _ _ _
  · rw [GetKey_traced]
    exact filter_isNewRequest_callEvents _ _ _ _ _
  · rw [EditKey_traced]
    exact filter_isNewRequest_callEvents _ _ _ _ _
  · rw [DeleteKey_traced]
    exact filter_isNewRequest_callEvents _ _ _ _ _
  · intro i
    rw [keyPath, formatInt_eq_decimal]
  · intro u v h
    exact listKeysPath_injective h
  · intro i j h
    exact keyPath_injective h

/-! ## Errors and results -/

/-- C6: for each of the five operations, when the request builder fails
with error `e` the operation returns exactly `e`, a nil decoded result and nil
response metadata, and the transport is not executed. -/
theorem builder_error_propagates {σ Req Resp Err : Type} (c : Client σ Req Resp Err)
    (user : String) (id : Int) (key : Option Key) (s : σ) (e : Err) :
    ((c.NewRequest "GET" (listKeysPath user) Body.nil s).1.2 = some e →
        (ListKeys c user s).1 = (none, none, some e) ∧
          transportCalls (ListKeys c.traced user (s, [])).2.2 = 0) ∧
      ((c.NewRequest "GET" (keyPath id) Body.nil s).1.2 = some e →
        (GetKey c id s).1 = (none, none, some e) ∧
          transportCalls (GetKey c.traced id (s, [])).2.2 = 0) ∧
      ((c.NewRequest "POST" "user/keys" (Body.key key) s).1.2 = some e →
        (CreateKey c key s).1 = (none, none, some e) ∧
          transportCalls (CreateKey c.traced key (s, [])).2.2 = 0) ∧
      ((c.NewRequest "PATCH" (keyPath id) (Body.key key) s).1.2 = some e →
        (EditKey c id key s).1 = (none, none, some e) ∧
          transportCalls (EditKey c.traced id key (s, [])).2.2 = 0) ∧
      ((c.NewRequest "DELETE" (keyPath id) Body.nil s).1.2 = some e →
        (DeleteKey c id s).1 = (none, some e) ∧
          transportCalls (DeleteKey c.traced id (s, [])).2.2 = 0) := by
  refine ⟨?_, ?_, ?_, ?_, ?_⟩
  · intro h
    refine ⟨ListKeys_of_buildErr c user s e h, ?_⟩
    rw [ListKeys_traced, List.nil_append, transportCalls_callEvents, h]
    rfl
  · intro h
    refine ⟨GetKey_of_buildErr c id s e h, ?_⟩
    rw [GetKey_traced, List.nil_append, transportCalls_callEvents, h]
    rfl
  · intro h
    refine ⟨CreateKey_of_buildErr c key s e h, ?_⟩
    rw [CreateKey_traced, List.nil_append, transportCalls_callEvents, h]
    rfl
  · intro h
    refine ⟨EditKey_of_buildErr c id key s e h, ?_⟩
    rw [EditKey_traced, List.nil_append, transportCalls_callEvents, h]
    rfl
  · intro h
    refine ⟨DeleteKey_of_buildErr c id s e h, ?_⟩
    rw [DeleteKey_traced, List.nil_append, transportCalls_callEvents, h]
    rfl

/-- C6 at a concrete client: with a builder that rejects every path, the five
operations return its error with nil results and never reach the transport. -/
theorem builder_error_propagates_witness :
    ((ListKeys badURLClient "octocat" ()).1 =
        (none, none, some (Error.URLError "cannot resolve path")) ∧
        transportCalls (ListKeys badURLClient.traced "octocat" ((), [])).2.2 = 0) ∧
      ((GetKey badURLClient 42 ()).1 =
        (none, none, some (Error.URLError "cannot resolve path")) ∧
        transportCalls (GetKey badURLClient.traced 42 ((), [])).2.2 = 0) ∧
      ((CreateKey badURLClient (some laptopKey) ()).1 =
        (none, none, some (Error.URLError "cannot resolve path")) ∧
        transportCalls (CreateKey badURLClient.traced (some laptopKey) ((), [])).2.2 = 0) ∧
      ((EditKey badURLClient 42 (some laptopKey) ()).1 =
        (none, none, some (Error.URLError "cannot resolve path")) ∧
        transportCalls (EditKey badURLClient.traced 42 (some laptopKey) ((), [])).2.2 = 0) ∧
      ((DeleteKey badURLClient 42 ()).1 =
        (none, some (Error.URLError "cannot resolve path")) ∧
        transportCalls (DeleteKey badURLClient.traced 42 ((), [])).2.2 = 0) :=
  have h := builder_error_propagates badURLClient "octocat" 42 (some laptopKey) ()
    (Error.URLError "cannot resolve path")
  ⟨h.1 rfl, h.2.1 rfl, h.2.2.1 rfl, h.2.2.2.1 rfl, h.2.2.2.2 rfl⟩

/-- C7: for each of the five operations, when request building succeeds the
response metadata and the error returned are exactly the pair the transport
returned for that request.  In particular, against a transport that reports
an APIError with status 404 and message "Not Found", every operation returns
that APIError with the transport's response metadata, and it is not a
DecodingError. -/
theorem transport_result_passes_through {σ Req Resp Err : Type} (c : Client σ Req Resp Err)
    (user : String) (id : Int) (key : Option Key) (s : σ) :
    ((c.NewRequest "GET" (listKeysPath user) Body.nil s).1.2 = none →
        (ListKeys c user s).1.2 =
          ((c.Do (c.NewRequest "GET" (listKeysPath user) Body.nil s).1.1 Target.keys none
              (c.NewRequest "GET" (listKeysPath user) Body.nil s).2).1.1,
            (c.Do (c.NewRequest "GET" (listKeysPath user) Body.nil s).1.1 Target.keys none
              (c.NewRequest "GET" (listKeysPath user) Body.nil s).2).1.2.1)) ∧
      ((c.NewRequest "GET" (keyPath id) Body.nil s).1.2 = none →
        (GetKey c id s).1.2 =
          ((c.Do (c.NewRequest "GET" (keyPath id) Body.nil s).1.1 Target.key newKey
              (c.NewRequest "GET" (keyPath id) Body.nil s).2).1.1,
            (c.Do (c.NewRequest "GET" (keyPath id) Body.nil s).1.1 Target.key newKey
              (c.NewRequest "GET" (keyPath id) Body.nil s).2).1.2.1)) ∧
      ((c.NewRequest "POST" "user/keys" (Body.key key) s).1.2 = none →
        (CreateKey c key s).1.2 =
          ((c.Do (c.NewRequest "POST" "user/keys" (Body.key key) s).1.1 Target.key newKey
              (c.NewRequest "POST" "user/keys" (Body.key key) s).2).1.1,
            (c.Do (c.NewRequest "POST" "user/keys" (Body.key key) s).1.1 Target.key newKey
              (c.NewRequest "POST" "user/keys" (Body.key key) s).2).1.2.1)) ∧
      ((c.NewRequest "PATCH" (keyPath id) (Body.key key) s).1.2 = none →
        (EditKey c id key s).1.2 =
          ((c.Do (c.NewRequest "PATCH" (keyPath id) (Body.key key) s).1.1 Target.key newKey
              (c.NewRequest "PATCH" (keyPath id) (Body.key key) s).2).1.1,
            (c.Do (c.NewRequest "PATCH" (keyPath id) (Body.key key) s).1.1 Target.key newKey
              (c.NewRequest "PATCH" (keyPath id) (Body.key key) s).2).1.2.1)) ∧
      ((c.NewRequest "DELETE" (keyPath id) Body.nil s).1.2 = none →
        (DeleteKey c id s).1 =
          ((c.Do (c.NewRequest "DELETE" (keyPath id) Body.nil s).1.1 Target.nil ()
              (c.NewRequest "DELETE" (keyPath id) Body.nil s).2).1.1,
            (c.Do (c.NewRequest "DELETE" (keyPath id) Body.nil s).1.1 Target.nil ()
              (c.NewRequest "DELETE" (keyPath id) Body.nil s).2).1.2.1)) ∧
      ((ListKeys notFoundClient user ()).1.2 =
          (some ⟨404⟩, some (Error.APIError 404 "Not Found")) ∧
        (GetKey notFoundClient id ()).1.2 =
          (some ⟨404⟩, some (Error.APIError 404 "Not Found")) ∧
        (CreateKey notFoundClient key ()).1.2 =
          (some ⟨404⟩, some (Error.APIError 404 "Not Found")) ∧
        (EditKey notFoundClient id key ()).1.2 =
          (some ⟨404⟩, some (Error.APIError 404 "Not Found")) ∧
        (DeleteKey notFoundClient id ()).1 =
          (some ⟨404⟩, some (Error.APIError 404 "Not Found")) ∧
        Error.isDecodingError (Error.APIError 404 "Not Found") = false) := by
  refine ⟨?_, ?_, ?_, ?_, ?_, ?_⟩
  · intro h
    rw [ListKeys_of_built c user s h]
  · intro h
    rw [GetKey_of_built c id s h]
  · intro h
    rw [CreateKey_of_built c key s h]
  · intro h
    rw [EditKey_of_built c id key s h]
  · intro h
    rw [DeleteKey_of_built c id s h]
  · exact ⟨rfl, rfl, rfl, rfl, rfl, rfl⟩

/-- C7 at a concrete client: against the 404 transport the builder succeeds
and each operation returns the transport's response metadata and error. -/
theorem transport_result_passes_through_witness :
    (ListKeys notFoundClient "octocat" ()).1.2 =
        (some ⟨404⟩, some (Error.APIError 404 "Not Found")) ∧
      (GetKey notFoundClient 42 ()).1.2 =
        (some ⟨404⟩, some (Error.APIError 404 "Not Found")) ∧
      (CreateKey notFoundClient (some laptopKey) ()).1.2 =
        (some ⟨404⟩, some (Error.APIError 404 "Not Found")) ∧
      (EditKey notFoundClient 42 (some laptopKey) ()).1.2 =
        (some ⟨404⟩, some (Error.APIError 404 "Not Found")) ∧
      (DeleteKey notFoundClient 42 ()).1 =
        (some ⟨404⟩, some (Error.APIError 404 "Not Found")) :=
  have h := transport_result_passes_through notFoundClient "octocat" 42 (some laptopKey) ()
  ⟨h.1 rfl, h.2.1 rfl, h.2.2.1 rfl, h.2.2.2.1 rfl, h.2.2.2.2.1 rfl⟩

/-- C8: for every id and every client, `DeleteKey` builds its one request
with no body, and every transport call it makes carries the nil decode target,
whose cell is the one-element type: the transport has nothing to decode into
and `DeleteKey` returns only response metadata and an error.  At id 42 against
a transport that answers 200 with a body, the calls are exactly the DELETE
request for `user/keys/42` and one execution with the nil target. -/
theorem DeleteKey_discards_body {σ Req Resp Err : Type} (c : Client σ Req Resp Err)
    (id : Int) (s : σ) :
    (DeleteKey c.traced id (s, [])).2.2.filter Event.isNewRequest =
        [Event.newRequest "DELETE" ("user/keys/" ++ decimal id) Body.nil] ∧
      (∀ req v, Event.doCall req v ∈ (DeleteKey c.traced id (s, [])).2.2 → v = Target.nil) ∧
      (∀ x y : Target.nil.Cell, x = y) ∧
      (DeleteKey okClient.traced 42 ((), [])).2.2 =
        [Event.newRequest "DELETE" "user/keys/42" Body.nil,
          Event.doCall (some ⟨"DELETE", "user/keys/42", Body.nil⟩) Target.nil] ∧
      (DeleteKey okClient 42 ()).1 = (some ⟨200⟩, none) := by
  have hp : keyPath id = "user/keys/" ++ decimal id := by
    rw [keyPath, formatInt_eq_decimal]
  refine ⟨?_, ?_, ?_, ?_, ?_⟩
  · rw [DeleteKey_traced, ← hp]
    exact filter_isNewRequest_callEvents _ _ _ _ _
  · intro req v hmem
    have hmem2 : Event.doCall req v ∈
        (DeleteKey c.traced id (s, [])).2.2.filter Event.isDo :=
      List.mem_filter.mpr ⟨hmem, rfl⟩
    rw [DeleteKey_traced, List.nil_append, filter_isDo_callEvents] at hmem2
    by_cases hb : (c.NewRequest "DELETE" (keyPath id) Body.nil s).1.2.isSome
    · simp [hb] at hmem2
    · simp only [hb, Bool.false_eq_true, if_false, List.mem_singleton,
        Event.doCall.injEq] at hmem2
      exact hmem2.2
  · intro x y
    rfl
  · decide
  · decide

/-- C9: for each of the five operations and every client, one call invokes
the request builder exactly once and executes the transport at most once:
exactly once when the builder reports no error and never when it reports
one. -/
theorem single_exchange {σ Req Resp Err : Type} (c : Client σ Req Resp Err)
    (user : String) (id : Int) (key : Option Key) (s : σ) :
    (builderCalls (ListKeys c.traced user (s, [])).2.2 = 1 ∧
        transportCalls (ListKeys c.traced user (s, [])).2.2 =
          (if (c.NewRequest "GET" (listKeysPath user) Body.nil s).1.2.isSome then 0 else 1) ∧
        transportCalls (ListKeys c.traced user (s, [])).2.2 ≤ 1) ∧
      (builderCalls (GetKey c.traced id (s, [])).2.2 = 1 ∧
        transportCalls (GetKey c.traced id (s, [])).2.2 =
          (if (c.NewRequest "GET" (keyPath id) Body.nil s).1.2.isSome then 0 else 1) ∧
        transportCalls (GetKey c.traced id (s, [])).2.2 ≤ 1) ∧
      (builderCalls (CreateKey c.traced key (s, [])).2.2 = 1 ∧
        transportCalls (CreateKey c.traced key (s, [])).2.2 =
          (if (c.NewRequest "POST" "user/keys" (Body.key key) s).1.2.isSome then 0 else 1) ∧
        transportCalls (CreateKey c.traced key (s, [])).2.2 ≤ 1) ∧
      (builderCalls (EditKey c.traced id key (s, [])).2.2 = 1 ∧
        transportCalls (EditKey c.traced id key (s, [])).2.2 =
          (if (c.NewRequest "PATCH" (keyPath id) (Body.key key) s).1.2.isSome then 0 else 1) ∧
        transportCalls (EditKey c.traced id key (s, [])).2.2 ≤ 1) ∧
      (builderCalls (DeleteKey c.traced id (s, [])).2.2 = 1 ∧
        transportCalls (DeleteKey c.traced id (s, [])).2.2 =
          (if (c.NewRequest "DELETE" (keyPath id) Body.nil s).1.2.isSome then 0 else 1) ∧
        transportCalls (DeleteKey c.traced id (s, [])).2.2 ≤ 1) := by
  refine ⟨?_, ?_, ?_, ?_, ?_⟩
  · rw [ListKeys_traced, List.nil_append, builderCalls_callEvents, transportCalls_callEvents]
    refine ⟨rfl, rfl, ?_⟩
    split <;> omega
  · rw [GetKey_traced, List.nil_append, builderCalls_callEvents, transportCalls_callEvents]
    refine ⟨rfl, rfl, ?_⟩
    split <;> omega
  · rw [CreateKey_traced, List.nil_append, builderCalls_callEvents, transportCalls_callEvents]
    refine ⟨rfl, rfl, ?_⟩
    split <;> omega
  · rw [EditKey_traced, List.nil_append, builderCalls_callEvents, transportCalls_callEvents]
    refine ⟨rfl, rfl, ?_⟩
    split <;> omega
  · rw [DeleteKey_traced, List.nil_append, builderCalls_callEvents, transportCalls_callEvents]
    refine ⟨rfl, rfl, ?_⟩
    split <;> omega

/-- C5, as stated, fails: against a transport that cannot connect, `GetKey`
returns a non-nil error together with a non-nil key pointer. -/
theorem GetKey_error_with_result :
    (GetKey downClient 42 ()).1 =
        (some newKey, none, some (Error.TransportError "connection refused")) ∧
      ¬ ((GetKey downClient 42 ()).1.2.2 ≠ none → (GetKey downClient 42 ()).1.1 = none) := by
  decide

/-- C5, amended: for `ListKeys`, `GetKey`, `CreateKey` and `EditKey`, when
the request builder reports an error the decoded result returned with it is
nil; when the builder reports none, the decoded result is the decode target as
the transport left it, whatever error the transport reports: a non-nil
pointer to the key cell for `GetKey`, `CreateKey` and `EditKey`, the slice in
the cell for `ListKeys`. -/
theorem decoded_result_on_error {σ Req Resp Err : Type} (c : Client σ Req Resp Err)
    (user : String) (id : Int) (key : Option Key) (s : σ) :
    ((c.NewRequest "GET" (listKeysPath user) Body.nil s).1.2 ≠ none →
        (ListKeys c user s).1.1 = none) ∧
      ((c.NewRequest "GET" (keyPath id) Body.nil s).1.2 ≠ none →
        (GetKey c id s).1.1 = none) ∧
      ((c.NewRequest "POST" "user/keys" (Body.key key) s).1.2 ≠ none →
        (CreateKey c key s).1.1 = none) ∧
      ((c.NewRequest "PATCH" (keyPath id) (Body.key key) s).1.2 ≠ none →
        (EditKey c id key s).1.1 = none) ∧
      ((c.NewRequest "GET" (listKeysPath user) Body.nil s).1.2 = none →
        (ListKeys c user s).1.1 =
          (c.Do (c.NewRequest "GET" (listKeysPath user) Body.nil s).1.1 Target.keys none
            (c.NewRequest "GET" (listKeysPath user) Body.nil s).2).1.2.2) ∧
      ((c.NewRequest "GET" (keyPath id) Body.nil s).1.2 = none →
        (GetKey c id s).1.1 =
          some (c.Do (c.NewRequest "GET" (keyPath id) Body.nil s).1.1 Target.key newKey
            (c.NewRequest "GET" (keyPath id) Body.nil s).2).1.2.2) ∧
      ((c.NewRequest "POST" "user/keys" (Body.key key) s).1.2 = none →
        (CreateKey c key s).1.1 =
          some (c.Do (c.NewRequest "POST" "user/keys" (Body.key key) s).1.1 Target.key newKey
            (c.NewRequest "POST" "user/keys" (Body.key key) s).2).1.2.2) ∧
      ((c.NewRequest "PATCH" (keyPath id) (Body.key key) s).1.2 = none →
        (EditKey c id key s).1.1 =
          some (c.Do (c.NewRequest "PATCH" (keyPath id) (Body.key key) s).1.1 Target.key newKey
            (c.NewRequest "PATCH" (keyPath id) (Body.key key) s).2).1.2.2) := by
  refine ⟨?_, ?_, ?_, ?_, ?_, ?_, ?_, ?_⟩
  · intro h
    obtain ⟨e, he⟩ := Option.ne_none_iff_exists'.mp h
    rw [ListKeys_of_buildErr c user s e he]
  · intro h
    obtain ⟨e, he⟩ := Option.ne_none_iff_exists'.mp h
    rw [GetKey_of_buildErr c id s e he]
  · intro h
    obtain ⟨e, he⟩ := Option.ne_none_iff_exists'.mp h
    rw [CreateKey_of_buildErr c key s e he]
  · intro h
    obtain ⟨e, he⟩ := Option.ne_none_iff_exists'.mp h
    rw [EditKey_of_buildErr c id key s e he]
  · intro h
    rw [ListKeys_of_built c user s h]
  · intro h
    rw [GetKey_of_built c id s h]
  · intro h
    rw [CreateKey_of_built c key s h]
  · intro h
    rw [EditKey_of_built c id key s h]

/-- C5, amended, at concrete clients: a failing builder gives nil results; a
transport that fails without writing gives `GetKey`, `CreateKey` and `EditKey`
a pointer to the all-absent key, and `ListKeys` the nil slice. -/
theorem decoded_result_on_error_witness :
    ((ListKeys badURLClient "octocat" ()).1.1 = none ∧
        (GetKey badURLClient 42 ()).1.1 = none ∧
        (CreateKey badURLClient (some laptopKey) ()).1.1 = none ∧
        (EditKey badURLClient 42 (some laptopKey) ()).1.1 = none) ∧
      ((ListKeys downClient "octocat" ()).1.1 = none ∧
        (GetKey downClient 42 ()).1.1 = some newKey ∧
        (CreateKey downClient (some laptopKey) ()).1.1 = some newKey ∧
        (EditKey downClient 42 (some laptopKey) ()).1.1 = some newKey) :=
  have hb := decoded_result_on_error badURLClient "octocat" 42 (some laptopKey) ()
  have hd := decoded_result_on_error downClient "octocat" 42 (some laptopKey) ()
  ⟨⟨hb.1 (by decide), hb.2.1 (by decide), hb.2.2.1 (by decide), hb.2.2.2.1 (by decide)⟩,
    ⟨hd.2.2.2.2.1 rfl, hd.2.2.2.2.2.1 rfl, hd.2.2.2.2.2.2.1 rfl, hd.2.2.2.2.2.2.2 rfl⟩⟩

/-! ## The JSON form of a key -/

/-- C3, as stated, fails: `CreateKey` hands the record with the title
`a`, 0xFF, `b` to the request builder as the body, and the object that body
encodes to decodes to a different record, the 0xFF replaced by U+FFFD. -/
theorem CreateKey_body_not_recovered :
    (CreateKey okClient.traced (some invalidTitleKey) ((), [])).2.2.filter
        Event.isNewRequest =
        [Event.newRequest "POST" "user/keys" (Body.key (some invalidTitleKey))] ∧
      marshalKey invalidTitleKey =
        [("title", JValue.string [0x61, 0xEF, 0xBF, 0xBD, 0x62])] ∧
      unmarshalKey (marshalKey invalidTitleKey) =
        some ⟨none, none, none, some [0x61, 0xEF, 0xBF, 0xBD, 0x62]⟩ ∧
      unmarshalKey (marshalKey invalidTitleKey) ≠ some invalidTitleKey := by
  decide

/-- C3, amended: for every record, `CreateKey` makes exactly one
request-builder call, a POST to `user/keys` with a pointer to the record as
the body.  The JSON object the record encodes to under the `Key` tags has
exactly the tags of the present fields as member names, maps each tag to the
value of its field when present (a string coerced to valid UTF-8) and to no
member when absent, and has no null member.  Decoding it yields the record
with every byte of a string field that is not part of a valid UTF-8 sequence
replaced by U+FFFD, which is the record itself when its present string fields
are valid UTF-8. -/
theorem CreateKey_posts_record {σ Req Resp Err : Type} (c : Client σ Req Resp Err)
    (r : Key) (s : σ) :
    (CreateKey c.traced (some r) (s, [])).2.2.filter Event.isNewRequest =
        [Event.newRequest "POST" "user/keys" (Body.key (some r))] ∧
      (marshalKey r).map Prod.fst = presentTags r ∧
      ((marshalKey r).lookup "id" = r.ID.map (fun n => JValue.number n.val) ∧
        (marshalKey r).lookup "key" = r.Key.map (fun v => JValue.string (toValidUTF8 v)) ∧
        (marshalKey r).lookup "url" = r.URL.map (fun v => JValue.string (toValidUTF8 v)) ∧
        (marshalKey r).lookup "title" =
          r.Title.map (fun v => JValue.string (toValidUTF8 v))) ∧
      (∀ m ∈ marshalKey r, m.2 ≠ JValue.null) ∧
      unmarshalKey (marshalKey r) = some (sanitizeKey r) ∧
      (stringsValid r = true → unmarshalKey (marshalKey r) = some r) := by
  refine ⟨?_, marshal_tags r, marshal_lookup r, marshal_no_null r, unmarshal_marshal r, ?_⟩
  · rw [CreateKey_traced]
    exact filter_isNewRequest_callEvents _ _ _ _ _
  · intro h
    rw [unmarshal_marshal, sanitizeKey_of_valid r h]

/-- C3, amended, at the scenario record: its strings are valid UTF-8, so the
body `CreateKey` posts decodes back to the record. -/
theorem CreateKey_posts_record_witness :
    (CreateKey okClient.traced (some laptopKey) ((), [])).2.2.filter Event.isNewRequest =
        [Event.newRequest "POST" "user/keys" (Body.key (some laptopKey))] ∧
      stringsValid laptopKey = true ∧
      unmarshalKey (marshalKey laptopKey) = some laptopKey :=
  have h := CreateKey_posts_record okClient laptopKey ()
  ⟨h.1, by decide, h.2.2.2.2.2 (by decide)⟩

/-- C4, as stated, fails: the record with the title `a`, 0xFF, `b` does not
survive the round trip, so the round trip is not the identity on every key
record. -/
theorem Key_round_trip_fails :
    unmarshalKey (marshalKey ⟨none, none, none, some [0x61, 0xFF, 0x62]⟩) =
        some ⟨none, none, none, some [0x61, 0xEF, 0xBF, 0xBD, 0x62]⟩ ∧
      ¬ (∀ k : Key, unmarshalKey (marshalKey k) = some k) := by
  refine ⟨by decide, ?_⟩
  intro h
  exact absurd (h ⟨none, none, none, some [0x61, 0xFF, 0x62]⟩) (by decide)

/-- C4, amended: round trip.  Encoding a key record under the `Key` tags and
decoding the result yields the record with every byte of a string field that
is not part of a valid UTF-8 sequence replaced by U+FFFD.  For a record whose
present string fields are valid UTF-8 that is the record itself: absent fields
stay absent and present fields stay present, also when they hold 0 or the
empty string.  The scenario record (material and title present, id and url
absent) encodes to its two members and decodes back; the record holding four
zero values encodes to four members and decodes back, unlike the all-absent
record, which encodes to none. -/
theorem Key_round_trip (k : Key) :
    unmarshalKey (marshalKey k) = some (sanitizeKey k) ∧
      (stringsValid k = true → unmarshalKey (marshalKey k) = some k) ∧
      (sanitizeKey k).ID = k.ID ∧
      ((sanitizeKey k).Key.isSome = k.Key.isSome ∧
        (sanitizeKey k).URL.isSome = k.URL.isSome ∧
        (sanitizeKey k).Title.isSome = k.Title.isSome) ∧
      (marshalKey laptopKey =
          [("key", JValue.string (utf8 "ssh-rsa AAA...")),
            ("title", JValue.string (utf8 "laptop"))] ∧
        unmarshalKey (marshalKey laptopKey) =
          some ⟨none, some (utf8 "ssh-rsa AAA..."), none, some (utf8 "laptop")⟩) ∧
      (marshalKey zeroValuesKey =
          [("id", JValue.number 0), ("key", JValue.string []), ("url", JValue.string []),
            ("title", JValue.string [])] ∧
        unmarshalKey (marshalKey zeroValuesKey) = some zeroValuesKey) ∧
      (marshalKey newKey = [] ∧ unmarshalKey (marshalKey newKey) = some newKey) := by
  refine ⟨unmarshal_marshal k, ?_, rfl, ?_, ?_, ?_, ?_⟩
  · intro h
    rw [unmarshal_marshal, sanitizeKey_of_valid k h]
  · rcases k with ⟨id, key, url, title⟩
    cases key <;> cases url <;> cases title <;> simp [sanitizeKey]
  · decide
  · decide
  · decide

/-- C4, amended, at the scenario record: its strings are valid UTF-8 and it
survives the round trip. -/
theorem Key_round_trip_witness :
    stringsValid laptopKey = true ∧
      unmarshalKey (marshalKey laptopKey) = some laptopKey :=
  ⟨by decide, (Key_round_trip laptopKey).2.1 (by decide)⟩

end Github
